import Mathlib

/-!
# Verification of the wrp-listener webhook registration engine

A shallow embedding, in Lean 4, of the core of the `listener` Go package
(`listener.go`, `token.go`, `options.go`, `errors.go`): the registration
engine (`New`, `Register`, `Stop`, `use`, `register`) and the callback
validator (`Tokenize`, `Authorize`, `best`, `getHashes`), together with the
byte-level primitives they rely on (SHA-1, HMAC, hex encoding, and UTF-8
string bytes).  Bytes are modelled as natural numbers below 256, machine
words as naturals reduced modulo 2^32, Go errors as values of a dedicated
inductive type where a wrapped/combined error is the list of its parts, and
a Go runtime panic as the `none` case of an `Option`-valued result.
-/

namespace WrpListener

/-- The sentinel error values of the `listener` package (`errors.go`),
plus opaque stand-ins for errors produced by collaborators (the HTTP
client, decorators, the hex decoder, the payload validator). -/
inductive GoError where
  | errInput
  | errInvalidTokenHeader
  | errRegistrationFailed
  | errRegistrationNotAttempted
  | errNotAcceptedHash
  | errNewRequestFailed
  | errDecoratorFailed
  | errInvalidHeaderFormat
  | errAlgorithmNotFound
  | errNoToken
  | errInvalidSignature
  | errUnableToReadBody
  | errHexDecode
  | external (n : Nat)
  deriving DecidableEq, Repr

/-- A Go error chain: `multierr.Combine`/`fmt.Errorf("%w: ..")` wrapping is
modelled as the list of the wrapped sentinel errors; `[]` is the nil error. -/
abbrev MultiErr := List GoError

/-! ## Machine words and byte-level primitives -/

/-- Reduce to a 32-bit word, as Go's `uint32` arithmetic does. -/
def w32 (n : Nat) : Nat := n % 4294967296

/-- 32-bit left rotation of a word already below `2^32`. -/
def rotl (k n : Nat) : Nat :=
  w32 (n * 2 ^ k) + n / 2 ^ (32 - k)

/-- Bitwise complement on 32-bit words. -/
def bnot32 (n : Nat) : Nat := Nat.xor n 4294967295

/-- Big-endian byte encoding of `n` into exactly `k` bytes. -/
def toBytesBE (k n : Nat) : List Nat :=
  (List.range k).map fun i => n / 2 ^ (8 * (k - 1 - i)) % 256

/-- Big-endian word from a list of bytes. -/
def wordBE (bs : List Nat) : Nat := bs.foldl (fun acc b => acc * 256 + b) 0

/-- Chunking worker, structurally recursive on a fuel argument that bounds
the number of chunks produced. -/
def chunkListAux (n : Nat) : Nat → List α → List (List α)
  | _, [] => []
  | 0, _ :: _ => []
  | fuel + 1, a :: l =>
    if n = 0 then []
    else (a :: l).take n :: chunkListAux n fuel ((a :: l).drop n)

/-- Split a list into chunks of `n` elements (the final chunk may be
shorter); the block/word grouping used by the hash compression loop. -/
def chunkList (n : Nat) (l : List α) : List (List α) :=
  chunkListAux n l.length l

/-! ## SHA-1 (FIPS 180-4), the hash behind `crypto/sha1.New` -/

/-- SHA-1 message padding: append `0x80`, zero bytes to 56 mod 64, then the
64-bit big-endian bit length. -/
def sha1Pad (msg : List Nat) : List Nat :=
  let len := msg.length
  let zeros := (119 - len % 64) % 64
  msg ++ 128 :: List.replicate zeros 0 ++ toBytesBE 8 (len * 8)

/-- The 80-entry SHA-1 message schedule from the 16 block words. -/
def sha1Schedule (ws : Array Nat) : Array Nat :=
  List.foldl
    (fun a i =>
      let t := i + 16
      a.push (rotl 1 (Nat.xor (Nat.xor (a.getD (t - 3) 0) (a.getD (t - 8) 0))
        (Nat.xor (a.getD (t - 14) 0) (a.getD (t - 16) 0)))))
    ws (List.range 64)

/-- One SHA-1 compression round. -/
def sha1Round (i wi : Nat) : Nat × Nat × Nat × Nat × Nat → Nat × Nat × Nat × Nat × Nat
  | (a, b, c, d, e) =>
    let f :=
      if i < 20 then Nat.lor (Nat.land b c) (Nat.land (bnot32 b) d)
      else if i < 40 then Nat.xor (Nat.xor b c) d
      else if i < 60 then Nat.lor (Nat.lor (Nat.land b c) (Nat.land b d)) (Nat.land c d)
      else Nat.xor (Nat.xor b c) d
    let k :=
      if i < 20 then 1518500249
      else if i < 40 then 1859775393
      else if i < 60 then 2400959708
      else 3395469782
    let temp := w32 (rotl 5 a + f + e + k + wi)
    (temp, a, rotl 30 b, c, d)

/-- SHA-1 compression of one 64-byte block into the running state. -/
def sha1Block (h : Nat × Nat × Nat × Nat × Nat) (block : List Nat) :
    Nat × Nat × Nat × Nat × Nat :=
  let ws := sha1Schedule ((chunkList 4 block).map wordBE).toArray
  let r := List.foldl (fun st i => sha1Round i (ws.getD i 0) st) h (List.range 80)
  (w32 (h.1 + r.1), w32 (h.2.1 + r.2.1), w32 (h.2.2.1 + r.2.2.1),
    w32 (h.2.2.2.1 + r.2.2.2.1), w32 (h.2.2.2.2 + r.2.2.2.2))

/-- SHA-1 of a byte sequence, as a 20-byte digest. -/
def sha1 (msg : List Nat) : List Nat :=
  let final := (chunkList 64 (sha1Pad msg)).foldl sha1Block
    (1732584193, 4023233417, 2562383102, 271733878, 3285377520)
  toBytesBE 4 final.1 ++ toBytesBE 4 final.2.1 ++ toBytesBE 4 final.2.2.1 ++
    toBytesBE 4 final.2.2.2.1 ++ toBytesBE 4 final.2.2.2.2

/-! ## HMAC (`crypto/hmac`) and hash constructors -/

/-- A Go `hash.Hash` constructor at the boundary used by the listener: the
digest function together with its block size. -/
structure GoHash where
  out : List Nat → List Nat
  blockSize : Nat

/-- The `sha1.New` constructor: SHA-1 with a 64-byte block. -/
def sha1Hash : GoHash := ⟨sha1, 64⟩

/-- `hmac.New(h, key)` followed by `Write(msg); Sum(nil)`: the RFC 2104 HMAC
of `msg` under `key`. -/
def hmacGo (g : GoHash) (key msg : List Nat) : List Nat :=
  let k0 := if g.blockSize < key.length then g.out key else key
  let k1 := k0 ++ List.replicate (g.blockSize - k0.length) 0
  g.out ((k1.map (Nat.xor 92)) ++ g.out ((k1.map (Nat.xor 54)) ++ msg))

/-! ## Hex encoding (`encoding/hex`) -/

/-- The lowercase hex digit for a value below 16, as `hex.EncodeToString`
emits it. -/
def hexDigit (n : Nat) : Char :=
  if n < 10 then Char.ofNat (48 + n) else Char.ofNat (87 + n)

/-- `hex.EncodeToString`: two lowercase hex digits per byte. -/
def hexEncode (bs : List Nat) : String :=
  ⟨bs.foldr (fun b acc => hexDigit (b / 16) :: hexDigit (b % 16) :: acc) []⟩

/-- The value of one hex digit, accepting `0-9`, `a-f` and `A-F` exactly as
Go's `fromHexChar` does. -/
def hexCharVal (c : Char) : Option Nat :=
  if 48 ≤ c.toNat ∧ c.toNat ≤ 57 then some (c.toNat - 48)
  else if 97 ≤ c.toNat ∧ c.toNat ≤ 102 then some (c.toNat - 87)
  else if 65 ≤ c.toNat ∧ c.toNat ≤ 70 then some (c.toNat - 55)
  else none

/-- `hex.DecodeString` on a character list: pairs of digits become bytes; an
odd length or a non-hex character is an error (`none`). -/
def hexDecodeChars : List Char → Option (List Nat)
  | [] => some []
  | [_] => none
  | c1 :: c2 :: rest =>
    match hexCharVal c1, hexCharVal c2, hexDecodeChars rest with
    | some h, some lo, some bs => some ((h * 16 + lo) :: bs)
    | _, _, _ => none

/-- `hex.DecodeString` on a Go string. -/
def hexDecode (s : String) : Option (List Nat) := hexDecodeChars s.data

/-! ## Go strings as UTF-8 bytes -/

/-- UTF-8 encoding of one code point, as Go's `[]byte(string)` produces. -/
def utf8Bytes (c : Nat) : List Nat :=
  if c < 128 then [c]
  else if c < 2048 then [192 + c / 64, 128 + c % 64]
  else if c < 65536 then [224 + c / 4096, 128 + c / 64 % 64, 128 + c % 64]
  else [240 + c / 262144, 128 + c / 4096 % 64, 128 + c / 64 % 64, 128 + c % 64]

/-- The bytes of a Go string: UTF-8 encoding of its code points. -/
def strBytes (s : String) : List Nat :=
  (s.data.map fun c => utf8Bytes c.toNat).foldr (· ++ ·) []

/-! ## The `strings` package functions the listener uses -/

/-- `unicode.IsSpace` on the code points `strings.TrimSpace` strips:
ASCII whitespace plus NEL and NBSP. -/
def isSpaceGo (c : Char) : Bool :=
  c.toNat = 32 ∨ c.toNat = 9 ∨ c.toNat = 10 ∨ c.toNat = 11 ∨ c.toNat = 12 ∨
    c.toNat = 13 ∨ c.toNat = 133 ∨ c.toNat = 160

/-- `strings.TrimSpace`: drop whitespace from both ends. -/
def trimGo (s : String) : String :=
  ⟨((s.data.dropWhile isSpaceGo).reverse.dropWhile isSpaceGo).reverse⟩

/-- Worker for `strings.Split` with a one-character separator. -/
def splitCharsAux (sep : Char) : List Char → List Char → List String
  | [], acc => [⟨acc.reverse⟩]
  | c :: rest, acc =>
    if c = sep then ⟨acc.reverse⟩ :: splitCharsAux sep rest []
    else splitCharsAux sep rest (c :: acc)

/-- `strings.Split(s, sep)` for the one-character separator `"="`. -/
def splitGo (sep : Char) (s : String) : List String :=
  splitCharsAux sep s.data []

/-- `strings.ToLower` on the ASCII range (algorithm names are ASCII). -/
def toLowerGo (s : String) : String :=
  ⟨s.data.map fun c =>
    if 65 ≤ c.toNat ∧ c.toNat ≤ 90 then Char.ofNat (c.toNat + 32) else c⟩

/-! ## The registration payload collaborator

The `webhook.Registration` payload lives in the external
`xmidt-org/webhook-schema` module; the spec treats it as an opaque
structure with a mutable `Secret` field, a `Duration`, and a serializable
body.  We model exactly that boundary: a record with those two fields, and
`json.Marshal` as the association list of its serialized fields, so that
"the body contains the secret" is the membership of the `Secret` field. -/
structure Registration where
  secret : String
  duration : Nat
  deriving DecidableEq, Repr

/-- `json.Marshal(&registration)`: the serialized field list of the payload
(modelled structurally at the collaborator boundary; it never fails on a
string/number payload). -/
def marshal (r : Registration) : List (String × String) :=
  [("Secret", r.secret), ("Duration", toString r.duration)]

/-- An option passed to `webhook.Registration.Validate`, opaque to the
listener: the two rules `New` itself adds, plus arbitrary caller-supplied
rules (`WebhookOpts`). -/
inductive VOpt where
  | validateRegistrationDuration (n : Nat)
  | noUntil
  | custom (n : Nat)
  deriving DecidableEq, Repr

/-- An opaque request decorator identifier; its behaviour during a
registration send is an input of `RegisterWorld`. -/
abbrev Decorator := Nat

/-! ## The Listener aggregate (`listener.go`) -/

/-- The mutable state of a `Listener`, with `sync` handles abstracted:
`shutdownSet` models `l.shutdown != nil` (the cancellation handle), and
`loopActive` models whether the background `run` goroutine is alive
(`shutdown()` has not yet been observed).  `Stop` cancels the loop but
never clears `l.shutdown` (listener.go:214-223), which is why the two
booleans are tracked separately. -/
structure Listener where
  webhookURL : String
  registration : Registration
  interval : Nat
  acceptedSecrets : List String
  hashPreferences : List String
  hashes : List (String × Option GoHash)
  body : List (String × String)
  reqDecorators : List Decorator
  registrationOpts : List VOpt
  shutdownSet : Bool
  loopActive : Bool

/-- Lookup in the `hashes` Go map: the most recently inserted binding for a
name wins, which the insert-by-prepend representation realizes. -/
def mapLookup (m : List (String × α)) (k : String) : Option α := m.lookup k

/-- The configuration options of `token.go`/`options.go`.  `nilOpt` is a nil
`Option` value (skipped by `New`); `hash` covers `AcceptSHA1`,
`AcceptNoHash` and `AcceptCustom` (whose nil-constructor case carries a
construction error); the client and context options mutate only state no
claim observes. -/
inductive LOption where
  | nilOpt
  | interval (i : Int)
  | httpClient (hasClient : Bool)
  | decorateRequest (d : Option Decorator)
  | acceptedSecrets (s : List String)
  | hash (name : String) (fn : Option GoHash) (err : Option GoError)
  | webhookOpts (opts : List VOpt)
  | contextOpt

/-- `AcceptSHA1()`: registers the `sha1` name with the `sha1.New`
constructor. -/
def acceptSHA1 : LOption := .hash "sha1" (some sha1Hash) none

/-- `AcceptNoHash()`: registers the `none` name with a nil hash
constructor (token.go:198-203 sets no `fn`). -/
def acceptNoHash : LOption := .hash "none" none none

/-- `opt.apply(&l)` for each concrete option type of `token.go`. -/
def applyOpt (l : Listener) : LOption → Except MultiErr Listener
  | .nilOpt => .ok l
  | .interval i =>
    if i < 0 then .error [.errInput] else .ok { l with interval := i.toNat }
  | .httpClient _ => .ok l
  | .decorateRequest d =>
    match d with
    | some dd => .ok { l with reqDecorators := l.reqDecorators ++ [dd] }
    | none => .ok l
  | .acceptedSecrets s => .ok { l with acceptedSecrets := l.acceptedSecrets ++ s }
  | .hash name fn err =>
    match err with
    | some e => .error [e]
    | none => .ok { l with hashPreferences := l.hashPreferences ++ [name],
                           hashes := (name, fn) :: l.hashes }
  | .webhookOpts o => .ok { l with registrationOpts := l.registrationOpts ++ o }
  | .contextOpt => .ok l

/-- The option loop of `New` (listener.go:105-113): nil options are
skipped, the first failing option aborts. -/
def applyOpts (l : Listener) : List LOption → Except MultiErr Listener
  | [] => .ok l
  | .nilOpt :: rest => applyOpts l rest
  | o :: rest =>
    match applyOpt l o with
    | .error e => .error e
    | .ok l2 => applyOpts l2 rest

/-- The zero-value listener `New` builds before applying options
(listener.go:90-103). -/
def initListener (url : String) (r : Registration) : Listener where
  webhookURL := url
  registration := r
  interval := 0
  acceptedSecrets := []
  hashPreferences := []
  hashes := []
  body := []
  reqDecorators := []
  registrationOpts := []
  shutdownSet := false
  loopActive := false

/-- `l.use(secret)` (listener.go:225-241): store the secret in the payload
and re-serialize it into the cached body before returning (the loop wake-up
signal does not change observable state). -/
def use (secret : String) (l : Listener) : Listener :=
  let r := { l.registration with secret := secret }
  { l with registration := r, body := marshal r }

/-- The validation options `New` assembles (listener.go:115-122): the
minimum-duration rule, the `NoUntil` rule when an interval is configured,
then the caller's registration options. -/
def vOptsFor (l : Listener) : List VOpt :=
  .validateRegistrationDuration 0 ::
    ((if l.interval ≠ 0 then [.noUntil] else []) ++ l.registrationOpts)

/-- `New(url, r, opts...)` (listener.go:80-135).  `validate` is the
external `webhook.Registration.Validate` collaborator.  The result mirrors
Go's `(*Listener, error)` pair, so that "no partially-initialized engine"
is a statement, not a typing artifact. -/
def New (validate : Registration → List VOpt → Option GoError)
    (url : String) (r : Option Registration) (opts : List LOption) :
    Option Listener × Option MultiErr :=
  match r with
  | none => (none, some [.errInput])
  | some reg =>
    let url2 := trimGo url
    if url2 = "" then (none, some [.errInput])
    else
      match applyOpts (initListener url2 reg) opts with
      | .error e => (none, some e)
      | .ok l =>
        match validate l.registration (vOptsFor l) with
        | some e => (none, some [e, .errInput])
        | none => (some (use l.registration.secret l), none)

/-! ## Register / Stop and the run state (listener.go:188-223) -/

/-- What a `Register` call did beyond the optional secret update:
`updatedOnly` is the `l.shutdown != nil` early return, `oneShot` the
synchronous `register(true)` call, `startedLoop` the `go l.run()` spawn. -/
inductive RegAction where
  | updatedOnly
  | oneShot
  | startedLoop
  deriving DecidableEq, Repr

/-- `l.Register(secret...)` (listener.go:188-210): use the first supplied
secret, then return early if the shutdown handle is set, run one synchronous
cycle if no interval is configured, and otherwise set the handle and start
the background loop. -/
def RegisterCall (secrets : List String) (l : Listener) : Listener × RegAction :=
  let l2 := match secrets with
    | [] => l
    | s :: _ => use s l
  if l2.shutdownSet then (l2, .updatedOnly)
  else if l2.interval = 0 then (l2, .oneShot)
  else ({ l2 with shutdownSet := true, loopActive := true }, .startedLoop)

/-- `l.Stop()` (listener.go:214-223): fire the cancellation handle and wait
for the loop to unwind.  `l.shutdown` itself is never reset to nil. -/
def StopCall (l : Listener) : Listener := { l with loopActive := false }

/-! ## The send-and-interpret cycle (listener.go:301-354) -/

/-- The response `client.Do` produced. -/
structure HTTPResponse where
  status : Nat
  respBody : List Nat
  deriving DecidableEq, Repr

/-- The environment of one registration send: whether `http.NewRequest`
failed, what each configured decorator returned (in order, `none` being
success), and the transport outcome. -/
structure RegisterWorld where
  newRequestErr : Option GoError
  decoratorResults : List (Option GoError)
  doResult : Except GoError HTTPResponse

/-- One `event.Registration` value, zero-initialized as in Go. -/
structure RegEvent where
  err : MultiErr := []
  statusCode : Nat := 0
  evBody : List Nat := []
  sentAt : Nat := 0
  untilTime : Option Nat := none
  deriving DecidableEq, Repr

/-- The first decorator failure, if any (the loop at listener.go:323-329
aborts on it). -/
def firstDecoratorFailure : List (Option GoError) → Option GoError
  | [] => none
  | none :: rest => firstDecoratorFailure rest
  | some e :: _ => some e

/-- What one `register` call produced: the events handed to `dispatch`
(each dispatch delivers its event to every subscribed listener once and
returns the event's error), the error returned to the caller, and the
request that was built, when one was. -/
structure RegOutcome where
  events : List RegEvent
  ret : MultiErr
  request : Option (String × List (String × String))
  deriving DecidableEq, Repr

/-- `l.dispatch(evnt)` for a registration event (listener.go:160-180): the
event goes to the listeners once, and the caller gets `evnt.Err`. -/
def dispatchReg (evnt : RegEvent) : List RegEvent × MultiErr := ([evnt], evnt.err)

/-- `l.register(locked)` (listener.go:301-354): copy out the URL and cached
body, build the POST, decorate, send, and classify the outcome; `now` is
the `time.Now()` reading taken just before `client.Do`. -/
def registerCycle (l : Listener) (w : RegisterWorld) (now : Nat) : RegOutcome :=
  let address := l.webhookURL
  let body := l.body
  match w.newRequestErr with
  | some e =>
    let d := dispatchReg { err := [e, .errNewRequestFailed, .errRegistrationNotAttempted] }
    ⟨d.1, d.2, none⟩
  | none =>
    match firstDecoratorFailure w.decoratorResults with
    | some e =>
      let d := dispatchReg { err := [e, .errDecoratorFailed, .errRegistrationNotAttempted] }
      ⟨d.1, d.2, some (address, body)⟩
    | none =>
      match w.doResult with
      | .error e =>
        let d := dispatchReg { err := [e, .errRegistrationFailed], sentAt := now }
        ⟨d.1, d.2, some (address, body)⟩
      | .ok resp =>
        if resp.status = 200 then
          let d := dispatchReg
            { sentAt := now, statusCode := 200,
              untilTime := some (now + l.registration.duration) }
          ⟨d.1, d.2, some (address, body)⟩
        else
          let d := dispatchReg
            { err := [.errRegistrationFailed], sentAt := now,
              statusCode := resp.status, evBody := resp.respBody }
          ⟨d.1, d.2, some (address, body)⟩

/-! ## Tokenize (listener.go:358-411) -/

/-- The parsed token type of `token.go`. -/
structure Tok where
  alg : String
  principal : String
  deriving DecidableEq, Repr

/-- Parse one non-blank, trimmed header entry (listener.go:384-395): split
on `=`, demand exactly two parts, lowercase and trim the algorithm, trim
the value, and reject empty parts. -/
def parseEntry (t : String) : Option (String × String) :=
  let parts := splitGo '=' t
  if parts.length = 2 then
    let alg := toLowerGo (trimGo (parts.getD 0 ""))
    let val := trimGo (parts.getD 1 "")
    if alg = "" ∨ val = "" then none else some (alg, val)
  else none

/-- The header loop of `Tokenize` (listener.go:379-399): skip blank
entries, fail on the first malformed one, collect `(alg, value)` pairs in
order. -/
def tokenizeEntries : List String → Option (List (String × String))
  | [] => some []
  | e :: rest =>
    let t := trimGo e
    if t = "" then tokenizeEntries rest
    else
      match parseEntry t with
      | none => none
      | some p =>
        match tokenizeEntries rest with
        | none => none
        | some ps => some (p :: ps)

/-- `l.best(choices)` (listener.go:463-476): the outer loop walks the
configured `hashPreferences`, the inner loop the offered choices. -/
def best : List String → List String → Except GoError String
  | [], _ => .error .errNotAcceptedHash
  | w :: rest, choices =>
    if choices.contains w then .ok w else best rest choices

/-- `l.Tokenize(r)` (listener.go:358-411) on the header value lists of the
request: `Xmidt-Signature` is consulted first and, when present, fully
shadows `X-Webpa-Signature`; `"none"` is always offered; the `choices` Go
map is modelled by prepending each parsed pair, so the most recent binding
for a name is found first. -/
def Tokenize (l : Listener) (xmidtValues webpaValues : List String) :
    Except MultiErr Tok :=
  let headers := if xmidtValues.length = 0 then webpaValues else xmidtValues
  match tokenizeEntries headers with
  | none => .error [.errInvalidTokenHeader, .errInvalidHeaderFormat]
  | some ps =>
    let choices := ps.foldl (fun m p => p :: m) [("none", "")]
    let offered := "none" :: ps.map Prod.fst
    match best l.hashPreferences offered with
    | .error _ => .error [.errInvalidTokenHeader, .errAlgorithmNotFound]
    | .ok b => .ok ⟨b, (mapLookup choices b).getD ""⟩

/-! ## Authorize (listener.go:415-459, 479-493) -/

/-- `hmac.New(h, key)`: calling a nil constructor `h()` inside `hmac.New`
is a nil-function-call runtime panic, the `none` case. -/
def goHmacNew (h : Option GoHash) (key : List Nat) :
    Option (List Nat → List Nat) :=
  match h with
  | none => none
  | some g => some fun msg => hmacGo g key msg

/-- The `hmac.New` loop of `getHashes` (listener.go:488-491), propagating a
panic from any construction. -/
def buildHmacs (h : Option GoHash) : List String → Option (List (List Nat → List Nat))
  | [] => some []
  | s :: rest =>
    match goHmacNew h (strBytes s), buildHmacs h rest with
    | some f, some fs => some (f :: fs)
    | _, _ => none

/-- `l.getHashes(which)` (listener.go:479-493): look the algorithm up in
the hash map, then build one keyed HMAC per accepted secret.  The outer
`Option` is a runtime panic; the inner `Except` the Go error return. -/
def getHashes (l : Listener) (which : String) :
    Option (Except GoError (List (List Nat → List Nat))) :=
  match mapLookup l.hashes which with
  | none => some (.error .errNotAcceptedHash)
  | some h =>
    match buildHmacs h l.acceptedSecrets with
    | none => none
    | some hs => some (.ok hs)

instance {ε α : Type} [DecidableEq ε] [DecidableEq α] : DecidableEq (Except ε α) := fun a b =>
  match a, b with
  | .error x, .error y =>
    if h : x = y then .isTrue (by rw [h]) else .isFalse (by simp [h])
  | .ok x, .ok y =>
    if h : x = y then .isTrue (by rw [h]) else .isFalse (by simp [h])
  | .error _, .ok _ => .isFalse (by simp)
  | .ok _, .error _ => .isFalse (by simp)

/-- An inbound request as `Authorize` sees it: a nil body, or a body stream
whose full read yields bytes or an I/O error. -/
structure AuthReq where
  reqBody : Option (Except GoError (List Nat))
  deriving DecidableEq, Repr

/-- The tail of `Authorize` after the body has been read (listener.go:442-458):
look up the hashes and compare each accepted secret's HMAC of the body
against the decoded principal, succeeding on the first match. -/
def authorizeTail (l : Listener) (alg : String) (secret msg : List Nat)
    (r : AuthReq) : Option (MultiErr × AuthReq) :=
  match getHashes l alg with
  | none => none
  | some (.error e) => some ([e], r)
  | some (.ok hs) =>
    if hs.any fun h => h msg == secret then some ([], r)
    else some ([.errInvalidSignature], r)

/-- `l.Authorize(r, t)` (listener.go:415-459): reject a nil token, decode
the principal as hex, read the body (a nil body is an empty message) and
restore the stream, then compare HMACs.  The result pairs the dispatched
event's error (`[]` means success) with the request the caller is left
with; `none` is a runtime panic. -/
def authorize (l : Listener) (r : AuthReq) (t : Option Tok) :
    Option (MultiErr × AuthReq) :=
  match t with
  | none => some ([.errNoToken], r)
  | some tok =>
    match hexDecode tok.principal with
    | none => some ([.errHexDecode, .errInvalidSignature], r)
    | some secret =>
      match r.reqBody with
      | some (.error e) => some ([e, .errUnableToReadBody], r)
      | none => authorizeTail l tok.alg secret [] r
      | some (.ok bs) => authorizeTail l tok.alg secret bs ⟨some (.ok bs)⟩

/-! ## Concrete scenario configurations (from `functional` test fixtures) -/

/-- A validator that accepts the payload, standing in for
`webhook.Registration.Validate` on the valid fixture payload. -/
def okValidate : Registration → List VOpt → Option GoError := fun _ _ => none

/-- The fixture payload: a secret and a five-minute duration. -/
def reg0 : Registration := ⟨"secret0", 300⟩

/-- An engine built by `New` with `AcceptSHA1()` and accepted secret
`"123456"`. -/
def sha1Cfg : Listener :=
  ((New okValidate "http://example.com" (some reg0)
    [acceptSHA1, .acceptedSecrets ["123456"]]).1).getD (initListener "x" reg0)

/-- An engine built by `New` with `AcceptNoHash()` and accepted secret
`"123456"`. -/
def noneCfg : Listener :=
  ((New okValidate "http://example.com" (some reg0)
    [acceptNoHash, .acceptedSecrets ["123456"]]).1).getD (initListener "x" reg0)

/-- An engine built by `New` with `AcceptNoHash()` and no accepted
secrets. -/
def noneCfgE : Listener :=
  ((New okValidate "http://example.com" (some reg0)
    [acceptNoHash]).1).getD (initListener "x" reg0)

/-- An engine built by `New` with `AcceptNoHash()` then `AcceptSHA1()`, so
its configured preference order is `["none", "sha1"]`. -/
def noneSha1Cfg : Listener :=
  ((New okValidate "http://example.com" (some reg0)
    [acceptNoHash, acceptSHA1, .acceptedSecrets ["123456"]]).1).getD
    (initListener "x" reg0)

/-- An engine built by `New` with a five-minute registration interval. -/
def intervalCfg : Listener :=
  ((New okValidate "http://example.com" (some reg0)
    [.interval 300]).1).getD (initListener "x" reg0)

/-- A request whose body reads as `"foo"`. -/
def fooReq : AuthReq := ⟨some (.ok (strBytes "foo"))⟩

/-! ## Helper lemmas: hex round-trip and digest byte bounds -/

theorem hexCharVal_hexDigit (n : Nat) (h : n < 16) :
    hexCharVal (hexDigit n) = some n := by
  interval_cases n <;> decide

theorem mem_toBytesBE_lt {k n b : Nat} (h : b ∈ toBytesBE k n) : b < 256 := by
  rcases List.mem_map.mp h with ⟨i, _, rfl⟩
  exact Nat.mod_lt _ (by norm_num)

theorem mem_sha1_lt {msg : List Nat} {b : Nat} (h : b ∈ sha1 msg) : b < 256 := by
  unfold sha1 at h
  simp only [List.mem_append] at h
  rcases h with (((h | h) | h) | h) | h <;> exact mem_toBytesBE_lt h

theorem mem_hmacGo_lt {g : GoHash} (hg : ∀ m b, b ∈ g.out m → b < 256)
    {key msg : List Nat} {b : Nat} (h : b ∈ hmacGo g key msg) : b < 256 :=
  hg _ _ h

theorem hexDecodeChars_encode (bs : List Nat) (h : ∀ b ∈ bs, b < 256) :
    hexDecodeChars
      (bs.foldr (fun b acc => hexDigit (b / 16) :: hexDigit (b % 16) :: acc) [])
      = some bs := by
  induction bs with
  | nil => rfl
  | cons b bs ih =>
    have hb : b < 256 := h b (List.mem_cons_self _ _)
    have h1 : b / 16 < 16 := Nat.div_lt_of_lt_mul (by omega)
    have h2 : b % 16 < 16 := Nat.mod_lt _ (by norm_num)
    have hrest := ih fun x hx => h x (List.mem_cons_of_mem _ hx)
    have hb2 : b / 16 * 16 + b % 16 = b := by
      have := Nat.div_add_mod b 16
      omega
    simp only [List.foldr_cons, hexDecodeChars, hexCharVal_hexDigit _ h1,
      hexCharVal_hexDigit _ h2, hrest, hb2]

theorem hexDecode_hexEncode (bs : List Nat) (h : ∀ b ∈ bs, b < 256) :
    hexDecode (hexEncode bs) = some bs :=
  hexDecodeChars_encode bs h

theorem buildHmacs_some (g : GoHash) (ss : List String) :
    buildHmacs (some g) ss
      = some (ss.map fun s => fun msg => hmacGo g (strBytes s) msg) := by
  induction ss with
  | nil => rfl
  | cons s ss ih => simp [buildHmacs, goHmacNew, ih]

/-! ## Claim theorems -/

set_option maxRecDepth 400000 in
/-- C1: for every hash algorithm configured with a real constructor and
every accepted secret, `Authorize` succeeds on a request whose token is the
hex HMAC of the body under that secret; concretely, with `AcceptSHA1()` and
accepted secret `"123456"`, body `"foo"` authorizes under principal
`f76a55b14b2b3bd08116b4ee857dd6439b507317` and is rejected with
`ErrInvalidSignature` under principal `"0000"`. -/
theorem authorize_hmac_accepts :
    (∀ (l : Listener) (alg : String) (g : GoHash) (s : String) (body : List Nat),
      mapLookup l.hashes alg = some (some g) →
      s ∈ l.acceptedSecrets →
      (∀ m b, b ∈ g.out m → b < 256) →
      authorize l ⟨some (.ok body)⟩ (some ⟨alg, hexEncode (hmacGo g (strBytes s) body)⟩)
        = some ([], ⟨some (.ok body)⟩)) ∧
    authorize sha1Cfg fooReq
      (some ⟨"sha1", "f76a55b14b2b3bd08116b4ee857dd6439b507317"⟩) = some ([], fooReq) ∧
    authorize sha1Cfg fooReq (some ⟨"sha1", "0000"⟩)
      = some ([GoError.errInvalidSignature], fooReq) := by
  have hgen : ∀ (l : Listener) (alg : String) (g : GoHash) (s : String) (body : List Nat),
      mapLookup l.hashes alg = some (some g) →
      s ∈ l.acceptedSecrets →
      (∀ m b, b ∈ g.out m → b < 256) →
      authorize l ⟨some (.ok body)⟩ (some ⟨alg, hexEncode (hmacGo g (strBytes s) body)⟩)
        = some ([], ⟨some (.ok body)⟩) := by
    intro l alg g s body hLook hMem hg
    have hdec : hexDecode (hexEncode (hmacGo g (strBytes s) body))
        = some (hmacGo g (strBytes s) body) :=
      hexDecode_hexEncode _ fun b hb => hg _ _ hb
    have hany : (l.acceptedSecrets.map fun s2 => fun msg => hmacGo g (strBytes s2) msg).any
        (fun h => h body == hmacGo g (strBytes s) body) = true := by
      rw [List.any_eq_true]
      exact ⟨_, List.mem_map_of_mem _ hMem, by simp⟩
    simp [authorize, hdec, authorizeTail, getHashes, hLook, buildHmacs_some, hany]
  refine ⟨hgen, ?_, ?_⟩
  · have hx : hexEncode (hmacGo sha1Hash (strBytes "123456") (strBytes "foo"))
        = "f76a55b14b2b3bd08116b4ee857dd6439b507317" := by rfl
    rw [← hx]
    exact hgen sha1Cfg "sha1" sha1Hash "123456" (strBytes "foo") rfl (by decide)
      (fun m b h => mem_sha1_lt h)
  · decide

/-- C1 witness: the general clause applied to the `AcceptSHA1()` engine,
secret `"123456"` and body `"foo"`, with every hypothesis discharged
there. -/
theorem authorize_hmac_accepts_witness :
    mapLookup sha1Cfg.hashes "sha1" = some (some sha1Hash) ∧
    "123456" ∈ sha1Cfg.acceptedSecrets ∧
    authorize sha1Cfg ⟨some (.ok (strBytes "foo"))⟩
      (some ⟨"sha1", hexEncode (hmacGo sha1Hash (strBytes "123456") (strBytes "foo"))⟩)
      = some ([], ⟨some (.ok (strBytes "foo"))⟩) :=
  ⟨rfl, by decide,
    authorize_hmac_accepts.1 sha1Cfg "sha1" sha1Hash "123456" (strBytes "foo") rfl
      (by decide) (fun _ _ h => mem_sha1_lt h)⟩

/-- C7: with only `AcceptNoHash()` configured and no signature headers,
`Tokenize` yields the token `("none", "")` and the empty principal hex-
decodes to the empty byte sequence; but `Authorize` follows the
per-accepted-secret comparison path only when the accepted-secrets list is
empty — with a non-empty list, `getHashes` passes the nil `"none"`
constructor to `hmac.New`, which is a nil-function-call runtime panic
(the final conjunct evaluates the code at that failing input). -/
theorem none_hash_scenario :
    Tokenize noneCfg [] [] = .ok ⟨"none", ""⟩ ∧
    hexDecode "" = some [] ∧
    authorize noneCfgE ⟨some (.ok (strBytes "foo"))⟩ (some ⟨"none", ""⟩)
      = some ([.errInvalidSignature], ⟨some (.ok (strBytes "foo"))⟩) ∧
    authorize noneCfg ⟨some (.ok (strBytes "foo"))⟩ (some ⟨"none", ""⟩) = none :=
  ⟨by decide, by decide, by decide, by decide⟩

theorem authorizeTail_fst (l : Listener) (alg : String) (secret msg : List Nat)
    (r1 r2 : AuthReq) :
    (authorizeTail l alg secret msg r1).map Prod.fst
      = (authorizeTail l alg secret msg r2).map Prod.fst := by
  unfold authorizeTail
  split
  · rfl
  · rfl
  · split <;> rfl

theorem authorizeTail_snd (l : Listener) (alg : String) (secret msg : List Nat)
    (r : AuthReq) (res : MultiErr × AuthReq)
    (h : authorizeTail l alg secret msg r = some res) : res.2 = r := by
  unfold authorizeTail at h
  split at h
  · simp at h
  · injection h with h2; rw [← h2]
  · split at h <;> (injection h with h2; rw [← h2])

/-- C9: `Authorize` treats a nil request body exactly as an empty byte
sequence (the authorization outcome is identical), and whenever the body
stream reads successfully, the request the caller is left with — on every
non-panicking outcome — again holds the bytes that were read. -/
theorem authorize_body_restored :
    (∀ (l : Listener) (t : Option Tok),
      (authorize l ⟨none⟩ t).map Prod.fst
        = (authorize l ⟨some (.ok [])⟩ t).map Prod.fst) ∧
    (∀ (l : Listener) (t : Option Tok) (bs : List Nat) (res : MultiErr × AuthReq),
      authorize l ⟨some (.ok bs)⟩ t = some res → res.2 = ⟨some (.ok bs)⟩) := by
  constructor
  · intro l t
    rcases t with _ | tok
    · rfl
    · rcases hd : hexDecode tok.principal with _ | secret
      · simp [authorize, hd]
      · simp only [authorize, hd]
        exact authorizeTail_fst l tok.alg secret [] ⟨none⟩ ⟨some (.ok [])⟩
  · intro l t bs res h
    rcases t with _ | tok
    · simp only [authorize] at h
      injection h with h2; rw [← h2]
    · simp only [authorize] at h
      rcases hd : hexDecode tok.principal with _ | secret
      · rw [hd] at h; injection h with h2; rw [← h2]
      · rw [hd] at h
        exact authorizeTail_snd l tok.alg secret bs _ res h

/-- C9 witness: the restore clause applied to a concrete request with body
`[1, 2]` and a nil token. -/
theorem authorize_body_restored_witness :
    (([GoError.errNoToken], (⟨some (.ok [1, 2])⟩ : AuthReq)).2 : AuthReq)
      = ⟨some (.ok [1, 2])⟩ :=
  authorize_body_restored.2 noneCfg none [1, 2] _ (by decide)

theorem tokenizeEntries_none_of_mem {xs : List String} {e : String}
    (hm : e ∈ xs) (ht : trimGo e ≠ "") (hp : parseEntry (trimGo e) = none) :
    tokenizeEntries xs = none := by
  induction xs with
  | nil => cases hm
  | cons x rest ih =>
    rcases List.mem_cons.mp hm with rfl | hm2
    · simp only [tokenizeEntries]
      rw [if_neg ht, hp]
    · by_cases hx : trimGo x = ""
      · simp only [tokenizeEntries]
        rw [if_pos hx]
        exact ih hm2
      · simp only [tokenizeEntries]
        rw [if_neg hx]
        cases hpx : parseEntry (trimGo x)
        · rfl
        · rw [ih hm2]

/-- C2 (amended): every entry of the inspected signature header — the
`Xmidt-Signature` values when any are present, else the legacy
`X-Webpa-Signature` values — that is non-blank after trimming and does not
split on `=` into exactly two non-empty trimmed parts fails the whole call
with `ErrInvalidTokenHeader`/`ErrInvalidHeaderFormat`, even when every
other entry is well-formed; and a present `Xmidt-Signature` header fully
shadows `X-Webpa-Signature`, so the malformed value `"foo"` fails
regardless of the legacy header's contents.  (Blank entries are skipped,
not rejected — see the counterexample.) -/
theorem tokenize_malformed_rejects :
    (∀ (l : Listener) (xs ws : List String) (e : String),
      e ∈ (if xs.length = 0 then ws else xs) → trimGo e ≠ "" →
      parseEntry (trimGo e) = none →
      Tokenize l xs ws = .error [.errInvalidTokenHeader, .errInvalidHeaderFormat]) ∧
    (∀ (l : Listener) (ws : List String),
      Tokenize l ["foo"] ws = .error [.errInvalidTokenHeader, .errInvalidHeaderFormat]) := by
  constructor
  · intro l xs ws e hm ht hp
    have hT : tokenizeEntries (if xs.length = 0 then ws else xs) = none :=
      tokenizeEntries_none_of_mem hm ht hp
    simp only [Tokenize, hT]
  · intro l ws
    have hT : tokenizeEntries ["foo"] = none := by decide
    simp [Tokenize, hT]

/-- C2 counterexample: the whitespace-only `Xmidt-Signature` entry `"  "`
does not split on `=` into two parts at all, yet `Tokenize` does not fail —
the entry is silently skipped and the call succeeds with the `"none"`
token. -/
theorem tokenize_malformed_counterexample :
    (splitGo '=' "  ").length ≠ 2 ∧
    (splitGo '=' (trimGo "  ")).length ≠ 2 ∧
    Tokenize noneCfg ["  "] ["sha1=abcd"] = .ok ⟨"none", ""⟩ :=
  ⟨by decide, by decide, by decide⟩

/-- C2 witness: a malformed `Xmidt-Signature` entry rejects the whole call
even though its sibling entry is well-formed and the legacy header holds a
well-formed value; and when only the legacy `X-Webpa-Signature` header is
present, a malformed entry among its values rejects the call too. -/
theorem tokenize_malformed_rejects_witness :
    Tokenize noneCfg ["sha1=abcd", "foo"] ["x=y"]
      = .error [GoError.errInvalidTokenHeader, GoError.errInvalidHeaderFormat] ∧
    Tokenize noneCfg [] ["sha1=abcd", "foo"]
      = .error [GoError.errInvalidTokenHeader, GoError.errInvalidHeaderFormat] :=
  ⟨tokenize_malformed_rejects.1 noneCfg _ _ "foo" (by decide) (by decide) (by decide),
   tokenize_malformed_rejects.1 noneCfg [] ["sha1=abcd", "foo"] "foo" (by decide)
     (by decide) (by decide)⟩

theorem best_eq_find (prefs choices : List String) :
    best prefs choices =
      match prefs.find? (fun p => choices.contains p) with
      | some p => .ok p
      | none => .error .errNotAcceptedHash := by
  induction prefs with
  | nil => rfl
  | cons w rest ih =>
    by_cases h : w ∈ choices
    · simp [best, List.find?_cons, h]
    · simp [best, List.find?_cons, h, ih]

/-- C3: on a request whose signature headers parse, `Tokenize` picks, among
the offered algorithms plus the implicit `"none"`, the first name in the
engine's `hashPreferences` in configuration order (`List.find?` over the
preference list), and fails with `ErrAlgorithmNotFound` when no offered
algorithm is configured. -/
theorem tokenize_preference_order :
    ∀ (l : Listener) (xs ws : List String) (ps : List (String × String)),
      tokenizeEntries (if xs.length = 0 then ws else xs) = some ps →
      ((∀ p, l.hashPreferences.find?
          (fun q => ("none" :: ps.map Prod.fst).contains q) = some p →
        ∃ v, Tokenize l xs ws = .ok ⟨p, v⟩) ∧
       (l.hashPreferences.find?
          (fun q => ("none" :: ps.map Prod.fst).contains q) = none →
        Tokenize l xs ws = .error [.errInvalidTokenHeader, .errAlgorithmNotFound])) := by
  intro l xs ws ps hps
  have hb := best_eq_find l.hashPreferences ("none" :: ps.map Prod.fst)
  constructor
  · intro p hp
    rw [hp] at hb
    have hb2 : best l.hashPreferences ("none" :: ps.map Prod.fst) = .ok p := hb
    refine ⟨(mapLookup (ps.foldl (fun m q => q :: m) [("none", "")]) p).getD "", ?_⟩
    simp only [Tokenize, hps, hb2]
  · intro hp
    rw [hp] at hb
    have hb2 : best l.hashPreferences ("none" :: ps.map Prod.fst)
        = .error .errNotAcceptedHash := hb
    simp only [Tokenize, hps, hb2]

/-- C3 witness: preferences `["none", "sha1"]` (configuration order) pick
`"none"` even though the client's header offered `sha1` explicitly. -/
theorem tokenize_preference_order_witness :
    tokenizeEntries
      (if (["sha1=bb"] : List String).length = 0 then ([] : List String)
       else ["sha1=bb"]) = some [("sha1", "bb")] ∧
    ∃ v, Tokenize noneSha1Cfg ["sha1=bb"] [] = .ok ⟨"none", v⟩ :=
  ⟨by decide,
    (tokenize_preference_order noneSha1Cfg ["sha1=bb"] [] [("sha1", "bb")]
      (by decide)).1 "none" (by decide)⟩

theorem foldl_prepend {α : Type} (ps : List α) (init : List α) :
    ps.foldl (fun m p => p :: m) init = ps.reverse ++ init := by
  induction ps generalizing init with
  | nil => simp
  | cons p ps ih => simp [List.foldl_cons, ih, List.reverse_cons]

theorem lookup_append_left {l1 l2 : List (String × String)} {a : String} {v : String}
    (h : l1.lookup a = some v) : (l1 ++ l2).lookup a = some v := by
  induction l1 with
  | nil => simp [List.lookup] at h
  | cons p rest ih =>
    rcases p with ⟨k, w⟩
    cases hak : (a == k)
    · simp only [List.lookup, hak, List.cons_append] at h ⊢
      exact ih h
    · simp only [List.lookup, hak, List.cons_append] at h ⊢
      exact h

/-- C10: when the chosen algorithm appears in several well-formed header
entries, `Tokenize` raises no error and the returned principal is the value
of the last occurrence (the `choices` map is written in entry order, so the
final write wins). -/
theorem tokenize_duplicate_last_wins :
    ∀ (l : Listener) (xs ws : List String) (ps : List (String × String)) (a v : String),
      tokenizeEntries (if xs.length = 0 then ws else xs) = some ps →
      best l.hashPreferences ("none" :: ps.map Prod.fst) = .ok a →
      ps.reverse.lookup a = some v →
      Tokenize l xs ws = .ok ⟨a, v⟩ := by
  intro l xs ws ps a v hps hb hv
  simp only [Tokenize, hps, hb, mapLookup, foldl_prepend, lookup_append_left hv,
    Option.getD_some]

/-- C10 witness: two `sha1` entries; the later value `bbbb` is returned. -/
theorem tokenize_duplicate_last_wins_witness :
    Tokenize sha1Cfg ["sha1=aaaa", "sha1=bbbb"] [] = .ok ⟨"sha1", "bbbb"⟩ :=
  tokenize_duplicate_last_wins sha1Cfg _ _ [("sha1", "aaaa"), ("sha1", "bbbb")]
    "sha1" "bbbb" (by decide) (by decide) (by decide)

/-- C4 (amended): the run state does not cycle — `Running` is entered at
most once.  `Stop` clears the loop but leaves the shutdown handle set, and
`Register` refuses to start a loop whenever the handle is set, so only the
first `Register` with a nonzero interval takes `Idle → Running`. -/
theorem register_runstate_once :
    ∀ (l : Listener) (secrets : List String),
      ((StopCall l).shutdownSet = l.shutdownSet ∧ (StopCall l).loopActive = false) ∧
      (l.shutdownSet = true →
        (RegisterCall secrets l).2 = .updatedOnly ∧
        ((RegisterCall secrets l).1).loopActive = l.loopActive) ∧
      (l.shutdownSet = false → l.interval ≠ 0 →
        (RegisterCall secrets l).2 = .startedLoop ∧
        ((RegisterCall secrets l).1).shutdownSet = true ∧
        ((RegisterCall secrets l).1).loopActive = true) := by
  intro l secrets
  refine ⟨⟨rfl, rfl⟩, ?_, ?_⟩
  · intro h
    cases secrets <;> simp [RegisterCall, use, h]
  · intro h hi
    cases secrets <;> simp [RegisterCall, use, h, hi]

/-- C4 counterexample: with a nonzero interval, `Register` starts a loop;
after `Stop` the loop is gone and the interval is still nonzero — exactly
the claim's premises — yet a second `Register` is a no-op (`updatedOnly`)
and no new loop starts, because `Stop` never cleared `l.shutdown`. -/
theorem register_stop_register_counterexample :
    (RegisterCall [] intervalCfg).2 = .startedLoop ∧
    (StopCall (RegisterCall [] intervalCfg).1).loopActive = false ∧
    (StopCall (RegisterCall [] intervalCfg).1).interval = 300 ∧
    (RegisterCall [] (StopCall (RegisterCall [] intervalCfg).1)).2 = .updatedOnly ∧
    ((RegisterCall [] (StopCall (RegisterCall [] intervalCfg).1)).1).loopActive = false :=
  ⟨by decide, by decide, by decide, by decide, by decide⟩

/-- C4 witness: the handle-already-set clause applied to the stopped
engine. -/
theorem register_runstate_once_witness :
    (RegisterCall [] (StopCall (RegisterCall [] intervalCfg).1)).2 = RegAction.updatedOnly ∧
    ((RegisterCall [] (StopCall (RegisterCall [] intervalCfg).1)).1).loopActive
      = (StopCall (RegisterCall [] intervalCfg).1).loopActive :=
  (register_runstate_once (StopCall (RegisterCall [] intervalCfg).1) []).2.1 (by decide)

theorem registerCall_body (l : Listener) (s : String) (rest : List String) :
    ((RegisterCall (s :: rest) l).1).body
      = marshal { l.registration with secret := s } := by
  simp only [RegisterCall]
  split
  · rfl
  · split <;> rfl

theorem registerCycle_request (l : Listener) (w : RegisterWorld) (now : Nat)
    (req : String × List (String × String))
    (h : (registerCycle l w now).request = some req) :
    req = (l.webhookURL, l.body) := by
  rcases w with ⟨nre, dr, dres⟩
  rcases nre with _ | e
  · simp only [registerCycle] at h
    rcases hfd : firstDecoratorFailure dr with _ | e2 <;> rw [hfd] at h
    · rcases dres with e3 | resp
      · simp only [dispatchReg] at h
        injection h with h2
        rw [← h2]
      · by_cases hst : resp.status = 200 <;>
          simp only [dispatchReg, hst, if_true, if_false, reduceIte] at h <;>
          (injection h with h2; rw [← h2])
    · simp only [dispatchReg] at h
      injection h with h2
      rw [← h2]
  · simp only [registerCycle] at h
    cases h

/-- C5: the cached body is never stale.  `use` re-serializes the payload
with the new secret before returning; `Register(newSecret)` leaves the body
serialized from the new secret (which the serialized field list plainly
contains); `New` establishes the invariant; and the request a subsequent
registration cycle builds carries exactly that body. -/
theorem cached_body_fresh :
    (∀ (l : Listener) (s : String),
      (use s l).body = marshal (use s l).registration ∧
      (use s l).registration.secret = s ∧
      ("Secret", s) ∈ (use s l).body) ∧
    (∀ (l : Listener) (s : String) (rest : List String),
      ((RegisterCall (s :: rest) l).1).body
        = marshal { l.registration with secret := s } ∧
      ("Secret", s) ∈ ((RegisterCall (s :: rest) l).1).body) ∧
    (∀ (validate : Registration → List VOpt → Option GoError) (url : String)
        (r : Option Registration) (opts : List LOption) (l : Listener),
      (New validate url r opts).1 = some l → l.body = marshal l.registration) ∧
    (∀ (l : Listener) (s : String) (rest : List String) (w : RegisterWorld)
        (now : Nat) (req : String × List (String × String)),
      (registerCycle ((RegisterCall (s :: rest) l).1) w now).request = some req →
      req.2 = marshal { l.registration with secret := s }) := by
  refine ⟨?_, ?_, ?_, ?_⟩
  · intro l s
    exact ⟨rfl, rfl, by simp [use, marshal]⟩
  · intro l s rest
    refine ⟨registerCall_body l s rest, ?_⟩
    rw [registerCall_body l s rest]
    simp [marshal]
  · intro validate url r opts l h
    rcases r with _ | reg
    · simp [New] at h
    · simp only [New] at h
      split at h
      · simp at h
      · split at h
        · simp at h
        · split at h
          · simp at h
          · simp only [Prod.fst] at h
            injection h with h2
            rw [← h2]
            rfl
  · intro l s rest w now req h
    have hr := registerCycle_request _ w now req h
    rw [hr]
    exact registerCall_body l s rest

/-- C5 witness: the construction clause applied to `New` on the fixture
payload with no options. -/
theorem cached_body_fresh_witness :
    (use "secret0" (initListener "u" reg0)).body
      = marshal (use "secret0" (initListener "u" reg0)).registration :=
  cached_body_fresh.2.2.1 okValidate "u" (some reg0) [] _ (by rfl)

/-- C6: each send-and-interpret cycle dispatches exactly one event whose
error is precisely what the synchronous caller receives; a decorator
failure is classified `RegistrationNotAttempted`, a transport failure
`RegistrationFailed`, a non-200 response `RegistrationFailed` with the
response body captured into the event, and a 200 response is a success
whose expiration horizon is the send time plus the configured duration. -/
theorem register_cycle_classified :
    ∀ (l : Listener) (w : RegisterWorld) (now : Nat),
      ((registerCycle l w now).events.map RegEvent.err = [(registerCycle l w now).ret]) ∧
      (∀ e, w.newRequestErr = none →
        firstDecoratorFailure w.decoratorResults = some e →
        (registerCycle l w now).ret
          = [e, .errDecoratorFailed, .errRegistrationNotAttempted]) ∧
      (∀ e, w.newRequestErr = none →
        firstDecoratorFailure w.decoratorResults = none →
        w.doResult = .error e →
        (registerCycle l w now).ret = [e, .errRegistrationFailed]) ∧
      (∀ resp, w.newRequestErr = none →
        firstDecoratorFailure w.decoratorResults = none →
        w.doResult = .ok resp → resp.status ≠ 200 →
        (registerCycle l w now).events
          = [{ err := [.errRegistrationFailed], sentAt := now,
               statusCode := resp.status, evBody := resp.respBody }]) ∧
      (∀ resp, w.newRequestErr = none →
        firstDecoratorFailure w.decoratorResults = none →
        w.doResult = .ok resp → resp.status = 200 →
        (registerCycle l w now).events
          = [{ sentAt := now, statusCode := 200,
               untilTime := some (now + l.registration.duration) }]) := by
  intro l w now
  rcases w with ⟨nre, dr, dres⟩
  refine ⟨?_, ?_, ?_, ?_, ?_⟩
  · rcases nre with _ | e
    · rcases hfd : firstDecoratorFailure dr with _ | e2
      · rcases dres with e3 | resp
        · simp [registerCycle, dispatchReg, hfd]
        · by_cases hst : resp.status = 200 <;>
            simp [registerCycle, dispatchReg, hfd, hst]
      · simp [registerCycle, dispatchReg, hfd]
    · simp [registerCycle, dispatchReg]
  · intro e hn hfd
    cases hn
    rcases dres with e3 | resp
    · simp [registerCycle, dispatchReg, hfd]
    · by_cases hst : resp.status = 200 <;>
        simp [registerCycle, dispatchReg, hfd, hst]
  · intro e hn hfd hdo
    cases hn
    cases hdo
    simp [registerCycle, dispatchReg, hfd]
  · intro resp hn hfd hdo hst
    cases hn
    cases hdo
    simp [registerCycle, dispatchReg, hfd, hst]
  · intro resp hn hfd hdo hst
    cases hn
    cases hdo
    simp [registerCycle, dispatchReg, hfd, hst]

/-- C6 witness: an HTTP 400 response with body `"hi"` produces the single
`RegistrationFailed` event carrying that body. -/
theorem register_cycle_classified_witness :
    (registerCycle sha1Cfg ⟨none, [none], .ok ⟨400, [104, 105]⟩⟩ 7).events
      = [{ err := [GoError.errRegistrationFailed], sentAt := 7,
           statusCode := 400, evBody := [104, 105] }] :=
  (register_cycle_classified sha1Cfg ⟨none, [none], .ok ⟨400, [104, 105]⟩⟩ 7).2.2.2.1
    ⟨400, [104, 105]⟩ rfl (by decide) rfl (by decide)

/-- C8: `New` rejects a nil payload and a whitespace-only URL with
`ErrInput`; every option-application failure and every validation failure
aborts construction with the corresponding error; and on every error path
the returned engine is nil, so a caller never sees a partially-initialized
engine. -/
theorem new_construction_contract :
    ∀ (validate : Registration → List VOpt → Option GoError) (url : String)
      (r : Option Registration) (opts : List LOption),
      (r = none → New validate url r opts = (none, some [.errInput])) ∧
      (trimGo url = "" → New validate url r opts = (none, some [.errInput])) ∧
      (∀ e, (New validate url r opts).2 = some e → (New validate url r opts).1 = none) ∧
      (∀ reg e, r = some reg → trimGo url ≠ "" →
        applyOpts (initListener (trimGo url) reg) opts = .error e →
        New validate url r opts = (none, some e)) ∧
      (∀ reg l e, r = some reg → trimGo url ≠ "" →
        applyOpts (initListener (trimGo url) reg) opts = .ok l →
        validate l.registration (vOptsFor l) = some e →
        New validate url r opts = (none, some [e, .errInput])) := by
  intro validate url r opts
  refine ⟨?_, ?_, ?_, ?_, ?_⟩
  · intro h
    cases h
    rfl
  · intro h
    rcases r with _ | reg
    · rfl
    · simp [New, h]
  · intro e h
    rcases r with _ | reg
    · rfl
    · simp only [New] at h ⊢
      split at h
      · simp_all
      · split at h
        · simp_all
        · split at h <;> simp_all
  · intro reg e hr hu ha
    cases hr
    simp [New, hu, ha]
  · intro reg l e hr hu ha hv
    cases hr
    simp [New, hu, ha, hv]

/-- C8 witness: a whitespace-only URL is rejected with `ErrInput` and no
engine. -/
theorem new_construction_contract_witness :
    New okValidate "   " (some reg0) [] = (none, some [GoError.errInput]) :=
  (new_construction_contract okValidate "   " (some reg0) []).2.1 (by decide)

end WrpListener
